import Mathlib

/-!
Verification development for the Cerelog X8 serial acquisition driver and its
device firmware.  Bytes are modelled as `Nat` (values below 256), machine
integers as `Nat`/`Int` with explicit `% 2 ^ w` where wrap-around matters.

Host side (`Cerelog_X8`, the definitive revision of `cerelog.cpp`):
  `read_thread`'s sliding-buffer scan loop, packet validation (start marker
  and additive checksum), timestamp and channel decoding with 24-bit sign
  extension, `start_stream`/`stop_stream` as a state machine over the board
  flags, and the handshake packet encoder `send_timestamp_handshake`.

An earlier revision (the file containing the `consecutive_read_failures`
ceiling and an end-marker check) is modelled separately with the suffix
`000` / `rt000`.

Device side (`fw_ads1299_handshake_1.0.ino`): the data-packet framer of
`loop()` and the handshake responder `waitForTimestamp` with its 24-byte
ring buffer.
-/

namespace Cerelog

/- ===================== shared constants ===================== -/

/-- Modelled from the spec: BrainFlow exit codes (the enum header is not part
of this repository; the driver only relies on the distinct named values). -/
def STATUS_OK : Nat := 0

/-- BrainFlow exit code `BOARD_NOT_READY_ERROR`. -/
def BOARD_NOT_READY_ERROR : Nat := 7

/-- BrainFlow exit code `STREAM_ALREADY_RUN_ERROR`. -/
def STREAM_ALREADY_RUN_ERROR : Nat := 8

/-- BrainFlow exit code `STREAM_THREAD_IS_NOT_RUNNING`. -/
def STREAM_THREAD_IS_NOT_RUNNING : Nat := 11

/-- BrainFlow exit code `BOARD_NOT_CREATED_ERROR`. -/
def BOARD_NOT_CREATED_ERROR : Nat := 15

/-- BrainFlow exit code `GENERAL_ERROR`. -/
def GENERAL_ERROR : Nat := 17

/-- BrainFlow exit code `SYNC_TIMEOUT_ERROR`. -/
def SYNC_TIMEOUT_ERROR : Nat := 18

/-- `PACKET_TOTAL_SIZE` (both firmware and host): 2 + 1 + (4 + 27) + 1 + 2. -/
def PACKET_TOTAL_SIZE : Nat := 37

/-- Firmware `PACKET_MSG_LENGTH` = timestamp (4) + ADS1299 data (27) = 31. -/
def PACKET_MSG_LENGTH : Nat := 31

/-- The timeout passed to `cv.wait_for` in `Cerelog_X8::start_stream`
(`std::chrono::seconds (10)`). -/
def START_STREAM_TIMEOUT_SECONDS : Nat := 10

/- ===================== packet codec ===================== -/

/-- `Cerelog_X8::calculate_checksum`: additive checksum with `uint8_t`
accumulation, i.e. mod 256 at every step. -/
def calculate_checksum (data : List Nat) : Nat :=
  data.foldl (fun a b => (a + b) % 256) 0

/-- The checksum computed inside the host scan loop
(`for (size_t i = 2; i < 34; ++i) calculated_checksum += buffer[buffer_pos + i]`,
`uint8_t` accumulation). -/
def hostChecksum (buffer : List Nat) (pos : Nat) : Nat :=
  (List.range 32).foldl (fun a i => (a + buffer.getD (pos + 2 + i) 0) % 256) 0

/-- Window validation of the definitive host scan loop: start-marker bytes
`0xAB 0xCD` and checksum at offset 34.  (This revision performs no end-marker
check.) -/
def isValidWindow (buffer : List Nat) (pos : Nat) : Bool :=
  buffer.getD pos 0 == 0xAB && buffer.getD (pos + 1) 0 == 0xCD &&
    hostChecksum buffer pos == buffer.getD (pos + 34) 0

/-- `int32_t` value of a bit pattern given as a `Nat` (two's complement). -/
def toInt32 (n : Nat) : Int :=
  if n % 2 ^ 32 < 2 ^ 31 then ((n % 2 ^ 32 : Nat) : Int)
  else ((n % 2 ^ 32 : Nat) : Int) - 2 ^ 32

/-- The host decoder's 24-bit sign extension:
`if (value & 0x00800000) value |= 0xFF000000;` on an `int32_t` holding the
non-negative 24-bit raw code. -/
def sign_extend_24 (value : Nat) : Int :=
  if value &&& 0x800000 ≠ 0 then toInt32 (value ||| 0xFF000000)
  else (value : Int)

/-- Reference semantics of a 24-bit two's-complement code, written from the
spec's words (sign extension "identical to a 24-bit ALU's two's-complement
semantics"), to be compared with `sign_extend_24`. -/
def twos24 (c : Nat) : Int :=
  if c < 2 ^ 23 then (c : Int) else (c : Int) - 2 ^ 24

/-- Raw (pre-sign-extension) channel value read by the host decoder:
`idx = buffer_pos + 7 + 3 + (ch * 3)`,
`value = (buffer[idx] << 16) | (buffer[idx+1] << 8) | buffer[idx+2]`. -/
def rawChannel (buffer : List Nat) (pos ch : Nat) : Nat :=
  (buffer.getD (pos + 7 + 3 + ch * 3) 0 <<< 16) |||
    (buffer.getD (pos + 7 + 3 + ch * 3 + 1) 0 <<< 8) |||
    buffer.getD (pos + 7 + 3 + ch * 3 + 2) 0

/-- Channel value after the decoder's sign extension. -/
def decodeChannel (buffer : List Nat) (pos ch : Nat) : Int :=
  sign_extend_24 (rawChannel buffer pos ch)

/-- `board_timestamp`: 4 bytes big-endian at offsets 3..6 of the packet. -/
def decodeTimestamp (buffer : List Nat) (pos : Nat) : Nat :=
  (buffer.getD (pos + 3) 0 <<< 24) ||| (buffer.getD (pos + 4) 0 <<< 16) |||
    (buffer.getD (pos + 5) 0 <<< 8) ||| buffer.getD (pos + 6) 0

/-- One decoded sample row: the raw board timestamp and the eight
sign-extended channel values.  (The floating-point volt conversion and the
host-clock offset are outside the integer model.) -/
structure Sample where
  timestamp : Nat
  channels : List Int
deriving DecidableEq

/-- Decode the packet whose start marker sits at `pos`. -/
def decodeAt (buffer : List Nat) (pos : Nat) : Sample :=
  { timestamp := decodeTimestamp buffer pos
    channels := (List.range 8).map (decodeChannel buffer pos) }

/-- The inner scan loop of the definitive `read_thread`:
`while (buffer.size () >= buffer_pos + PACKET_TOTAL_SIZE)`; on a marker or
checksum mismatch `buffer_pos++`, on success decode, publish and
`buffer_pos += PACKET_TOTAL_SIZE`.  Returns the published samples in order
and the final `buffer_pos` (the erase offset). -/
def scanLoop (buffer : List Nat) (pos : Nat) : List Sample × Nat :=
  if pos + PACKET_TOTAL_SIZE ≤ buffer.length then
    if isValidWindow buffer pos then
      let rest := scanLoop buffer (pos + PACKET_TOTAL_SIZE)
      (decodeAt buffer pos :: rest.1, rest.2)
    else scanLoop buffer (pos + 1)
  else ([], pos)
termination_by buffer.length - pos
decreasing_by
  · simp only [PACKET_TOTAL_SIZE] at *; omega
  · simp only [PACKET_TOTAL_SIZE] at *; omega

/-- Every buffer index the definitive scan loop can read while handling the
candidate window at `pos`: the two marker bytes, the checksum range
`pos+2 .. pos+33`, the stored checksum at `pos+34`, the timestamp bytes
`pos+3 .. pos+6` and the channel bytes `pos+10 .. pos+33`. -/
def scanWindowReads (pos : Nat) : List Nat :=
  [pos, pos + 1] ++ (List.range 32).map (fun i => pos + 2 + i) ++ [pos + 34] ++
    (List.range 4).map (fun i => pos + 3 + i) ++
    (List.range 24).map (fun i => pos + 10 + i)

/- ===================== earlier host revision ("000") ===================== -/

/-- Start-marker test of the earlier `read_thread` revision. -/
def isStart000 (buffer : List Nat) (pos : Nat) : Bool :=
  buffer.getD pos 0 == 0xAB && buffer.getD (pos + 1) 0 == 0xCD

/-- Checksum test of the earlier revision (same byte range as the definitive
one: `PACKET_IDX_LENGTH = 2` up to `PACKET_IDX_CHECKSUM = 34`). -/
def checksumOk000 (buffer : List Nat) (pos : Nat) : Bool :=
  hostChecksum buffer pos == buffer.getD (pos + 34) 0

/-- End-marker test of the earlier revision: bytes `0xDC 0xBA` at
`PACKET_IDX_END_MARKER = 35` and 36. -/
def endOk000 (buffer : List Nat) (pos : Nat) : Bool :=
  buffer.getD (pos + 35) 0 == 0xDC && buffer.getD (pos + 36) 0 == 0xBA

/-- Scan loop of the earlier revision: start marker, then checksum, then the
end-marker availability guard (`end_idx + 1 >= buffer_len` breaks; dead under
the outer guard), then the end marker; every mismatch advances by one byte. -/
def scanLoop000 (buffer : List Nat) (pos : Nat) : List Sample × Nat :=
  if pos + PACKET_TOTAL_SIZE ≤ buffer.length then
    if isStart000 buffer pos then
      if checksumOk000 buffer pos then
        if buffer.length ≤ pos + 35 + 1 then ([], pos)
        else if endOk000 buffer pos then
          let rest := scanLoop000 buffer (pos + PACKET_TOTAL_SIZE)
          (decodeAt buffer pos :: rest.1, rest.2)
        else scanLoop000 buffer (pos + 1)
      else scanLoop000 buffer (pos + 1)
    else scanLoop000 buffer (pos + 1)
  else ([], pos)
termination_by buffer.length - pos
decreasing_by
  · simp only [PACKET_TOTAL_SIZE] at *; omega
  · simp only [PACKET_TOTAL_SIZE] at *; omega
  · simp only [PACKET_TOTAL_SIZE] at *; omega
  · simp only [PACKET_TOTAL_SIZE] at *; omega

/- ===================== host read loop over a read trace ===================== -/

/-- State of the definitive `read_thread` visible to `start_stream`:
the sliding byte buffer, the board `state` code, and whether
`cv.notify_one` has been called. -/
structure RTState where
  buffer : List Nat
  state : Nat
  notified : Bool
deriving DecidableEq

/-- `read_thread` state at thread start: empty buffer, `state` as set by the
constructor (`SYNC_TIMEOUT_ERROR`), waiter not yet notified. -/
def initRT : RTState :=
  { buffer := [], state := SYNC_TIMEOUT_ERROR, notified := false }

/-- One iteration of the definitive `read_thread` loop, driven by the byte
chunk the serial read returned (`[]` models `bytes_read <= 0`, which only
sleeps 1 ms and continues — there is no failure ceiling in this revision).
On data: append, scan, set `state = STATUS_OK` and notify on the first
decoded packet, erase the consumed prefix. -/
def rt_iter (s : RTState) (chunk : List Nat) : RTState :=
  if chunk.isEmpty then s
  else
    let buf := s.buffer ++ chunk
    let scanned := scanLoop buf 0
    if scanned.1.isEmpty then { s with buffer := buf.drop scanned.2 }
    else
      { buffer := buf.drop scanned.2
        state := STATUS_OK
        notified := s.notified || decide (s.state ≠ STATUS_OK) }

/-- The definitive `read_thread` run over a finite trace of serial reads. -/
def part001_run (chunks : List (List Nat)) (s : RTState) : RTState :=
  chunks.foldl rt_iter s

/-- `MAX_CONSECUTIVE_FAILURES` of the earlier revision. -/
def MAX_CONSECUTIVE_FAILURES : Nat := 1000

/-- State of the earlier revision's `read_thread`: leftover buffer, the
`consecutive_read_failures` counter, board `state`, notification flag and
whether the thread has returned. -/
structure RT0State where
  buffer : List Nat
  cnt : Nat
  state : Nat
  notified : Bool
  exited : Bool
deriving DecidableEq

/-- Earlier revision's `read_thread` state at thread start. -/
def initRT0 : RT0State :=
  { buffer := [], cnt := 0, state := SYNC_TIMEOUT_ERROR, notified := false,
    exited := false }

/-- One iteration of the earlier revision's loop.  A failed read
(`chunk = []`) increments `consecutive_read_failures`; reaching
`MAX_CONSECUTIVE_FAILURES` sets `state = SYNC_TIMEOUT_ERROR`, notifies the
waiter and returns from the thread.  A successful read resets the counter
and scans (with the end-marker check of this revision). -/
def rt000_iter (s : RT0State) (chunk : List Nat) : RT0State :=
  if s.exited then s
  else if chunk.isEmpty then
    if MAX_CONSECUTIVE_FAILURES ≤ s.cnt + 1 then
      { s with
        cnt := s.cnt + 1, state := SYNC_TIMEOUT_ERROR,
        notified := true, exited := true }
    else { s with cnt := s.cnt + 1 }
  else
    let buf := s.buffer ++ chunk
    let scanned := scanLoop000 buf 0
    { buffer := buf.drop scanned.2
      cnt := 0
      state := if scanned.1.isEmpty then s.state else STATUS_OK
      notified := s.notified ||
        (!scanned.1.isEmpty && decide (s.state ≠ STATUS_OK))
      exited := false }

/-- The earlier revision's `read_thread` run over a finite read trace. -/
def rt000_run (chunks : List (List Nat)) (s : RT0State) : RT0State :=
  chunks.foldl rt000_iter s

/- ===================== host session state machine ===================== -/

/-- The `Cerelog_X8` board flags driving `start_stream` / `stop_stream`
(the source's boolean readiness field is rendered `inited`).  `thread_running` models
whether the spawned `streaming_thread` is still unjoined. -/
structure HostBoard where
  inited : Bool
  is_streaming : Bool
  keep_alive : Bool
  thread_running : Bool
  state : Nat
deriving DecidableEq

/-- `Cerelog_X8::start_stream` (definitive revision).  `acq_ok` abstracts
`prepare_for_acquisition`; `decoder_ok` abstracts whether
`cv.wait_for (lk, seconds (10), state == STATUS_OK)` returned `true`, i.e.
whether the read thread signalled a decoded packet within the bound.  On
timeout the thread is stopped (`keep_alive = false`) and joined before
returning `SYNC_TIMEOUT_ERROR`. -/
def start_stream (b : HostBoard) (acq_ok decoder_ok : Bool) : Nat × HostBoard :=
  if !b.inited then (BOARD_NOT_CREATED_ERROR, b)
  else if b.is_streaming then (STREAM_ALREADY_RUN_ERROR, b)
  else if !acq_ok then (GENERAL_ERROR, b)
  else
    let b1 : HostBoard := { b with keep_alive := true, thread_running := true }
    if decoder_ok then
      (STATUS_OK, { b1 with is_streaming := true, state := STATUS_OK })
    else
      (SYNC_TIMEOUT_ERROR, { b1 with keep_alive := false, thread_running := false })

/-- `Cerelog_X8::stop_stream`: if streaming, stop and join the thread and
return `STATUS_OK`; otherwise report `STREAM_THREAD_IS_NOT_RUNNING`. -/
def stop_stream (b : HostBoard) : Nat × HostBoard :=
  if b.is_streaming then
    (STATUS_OK,
      { b with keep_alive := false, is_streaming := false, thread_running := false })
  else (STREAM_THREAD_IS_NOT_RUNNING, b)

/- ===================== firmware: data-packet framer ===================== -/

/-- The firmware framer in `loop()`: start marker `0xAB 0xCD`, length byte
`PACKET_MSG_LENGTH`, 4 timestamp bytes big-endian, the 27 raw ADS1299 bytes,
the additive checksum over bytes 2..33 (`uint8_t` accumulation), end marker
`0xDC 0xBA`. -/
def encode_data_packet (timestamp : Nat) (raw_data : List Nat) : List Nat :=
  let body : List Nat :=
    PACKET_MSG_LENGTH :: ((timestamp >>> 24) &&& 0xFF) ::
      ((timestamp >>> 16) &&& 0xFF) :: ((timestamp >>> 8) &&& 0xFF) ::
      (timestamp &&& 0xFF) :: raw_data
  0xAB :: 0xCD :: (body ++ [calculate_checksum body, 0xDC, 0xBA])

/-- ADS1299 sample layout (firmware constants `ADS1299_NUM_STATUS_BYTES = 3`,
8 channels × 3 bytes, big-endian): 3 status bytes followed by the eight
3-byte channel codes.  Packs channel codes into the 24 data bytes that
follow the status bytes. -/
def packChannelCodes (codes : List Nat) : List Nat :=
  codes.flatMap (fun c => [(c >>> 16) &&& 0xFF, (c >>> 8) &&& 0xFF, c &&& 0xFF])

/- ===================== host handshake encoder ===================== -/

/-- `Cerelog_X8::send_timestamp_handshake`'s packet:
`[0xAA][0xBB][0x02][ts:4][reg_addr][reg_val][chk][0xCC][0xDD]`, the checksum
summing bytes 2..8 with `uint8_t` accumulation. -/
def encode_handshake (unix_timestamp reg_addr reg_val : Nat) : List Nat :=
  let p2 : Nat := 0x02
  let p3 : Nat := (unix_timestamp >>> 24) &&& 0xFF
  let p4 : Nat := (unix_timestamp >>> 16) &&& 0xFF
  let p5 : Nat := (unix_timestamp >>> 8) &&& 0xFF
  let p6 : Nat := unix_timestamp &&& 0xFF
  [0xAA, 0xBB, p2, p3, p4, p5, p6, reg_addr, reg_val,
    calculate_checksum [p2, p3, p4, p5, p6, reg_addr, reg_val], 0xCC, 0xDD]

/- ===================== firmware: handshake responder ===================== -/

/-- `RING_BUFFER_SIZE` (2 × handshake packet size). -/
def RING_BUFFER_SIZE : Nat := 24

/-- `get_baud_rate_from_config` (firmware): baud-rate table, 0 for an
invalid index. -/
def get_baud_rate_from_config (config_val : Nat) : Nat :=
  if config_val = 0x00 then 9600
  else if config_val = 0x01 then 19200
  else if config_val = 0x02 then 38400
  else if config_val = 0x03 then 57600
  else if config_val = 0x04 then 115200
  else if config_val = 0x05 then 230400
  else if config_val = 0x06 then 460800
  else if config_val = 0x07 then 921600
  else 0

/-- Device-side responder state: the 24-byte ring with head/tail/fill
counter, the bytes pending in the serial receive buffer, the timestamp
reference and the serial baud rate. -/
structure DeviceState where
  ring : List Nat
  ring_head : Nat
  ring_tail : Nat
  ring_counter : Nat
  incoming : List Nat
  ts_ref : Nat
  ts_inited : Bool
  baud : Nat
deriving DecidableEq

/-- The drain loop of `waitForTimestamp`:
`while (Serial.available() > 0 && ring_counter < RING_BUFFER_SIZE)` move one
byte into the ring.  Returns (remaining incoming, ring, head, counter);
nothing ever decrements `ring_counter`. -/
def drainGo : List Nat → List Nat → Nat → Nat → List Nat × List Nat × Nat × Nat
  | [], ring, head, counter => ([], ring, head, counter)
  | b :: rest, ring, head, counter =>
    if counter < RING_BUFFER_SIZE then
      drainGo rest (ring.set head b) ((head + 1) % RING_BUFFER_SIZE) (counter + 1)
    else (b :: rest, ring, head, counter)

/-- Drain the pending serial bytes into the ring buffer. -/
def drain (s : DeviceState) : DeviceState :=
  let r := drainGo s.incoming s.ring s.ring_head s.ring_counter
  { s with
    incoming := r.1, ring := r.2.1, ring_head := r.2.2.1,
    ring_counter := r.2.2.2 }

/-- The scan of `waitForTimestamp`: positions `i = 0 .. handshake_packet_size + 2`
from the (never-advanced) tail, looking for `0xAA 0xBB 0x02`. -/
def scanRing (s : DeviceState) : Option Nat :=
  (List.range 15).find? (fun i =>
    s.ring.getD ((s.ring_tail + i) % RING_BUFFER_SIZE) 0 == 0xAA &&
    s.ring.getD (((s.ring_tail + i) % RING_BUFFER_SIZE + 1) % RING_BUFFER_SIZE) 0 == 0xBB &&
    s.ring.getD (((s.ring_tail + i) % RING_BUFFER_SIZE + 2) % RING_BUFFER_SIZE) 0 == 0x02)

/-- The big-endian timestamp read at ring offsets `idx + 3 .. idx + 6`. -/
def handshakeTs (s : DeviceState) (idx : Nat) : Nat :=
  (s.ring.getD ((idx + 3) % RING_BUFFER_SIZE) 0 <<< 24) |||
    (s.ring.getD ((idx + 4) % RING_BUFFER_SIZE) 0 <<< 16) |||
    (s.ring.getD ((idx + 5) % RING_BUFFER_SIZE) 0 <<< 8) |||
    s.ring.getD ((idx + 6) % RING_BUFFER_SIZE) 0

/-- The baud-rate branch of the responder: when `reg_addr == 0x01` (ring
offset `idx + 7`) and the table accepts the index (offset `idx + 8`), switch
the serial rate; invalid indices change nothing. -/
def applyBaud (s : DeviceState) (idx : Nat) : DeviceState :=
  if s.ring.getD ((idx + 7) % RING_BUFFER_SIZE) 0 == 0x01 then
    if 0 < get_baud_rate_from_config (s.ring.getD ((idx + 8) % RING_BUFFER_SIZE) 0) then
      { s with baud :=
          get_baud_rate_from_config (s.ring.getD ((idx + 8) % RING_BUFFER_SIZE) 0) }
    else s
  else s

/-- On a marker match at ring index `idx`: read the big-endian timestamp and
the two parameter bytes, apply a valid baud-rate configuration when
`reg_addr == 0x01`, and always record the received timestamp.  No checksum
byte is ever examined. -/
def applyHandshake (s : DeviceState) (idx : Nat) : DeviceState :=
  { applyBaud s idx with ts_ref := handshakeTs s idx, ts_inited := true }

/-- `waitForTimestamp`: drain, require at least 12 buffered bytes, scan for
the marker triple, and on a hit apply the handshake and return `true`. -/
def waitForTimestamp (s : DeviceState) : DeviceState × Bool :=
  if (drain s).ring_counter < 12 then (drain s, false)
  else
    match scanRing (drain s) with
    | some idx =>
      (applyHandshake (drain s) (((drain s).ring_tail + idx) % RING_BUFFER_SIZE), true)
    | none => (drain s, false)

/-- One `loop()` tick of the firmware, restricted to the handshake path:
`if (Serial.available() >= 12) { if (waitForTimestamp()) return; }`.
(Sample framing does not touch the responder state.) -/
def tickDevice (s : DeviceState) : DeviceState × Bool :=
  if 12 ≤ s.incoming.length then waitForTimestamp s else (s, false)

/-- Whether a handshake is detected within `n` device ticks. -/
def hsDetectedWithin : Nat → DeviceState → Bool
  | 0, _ => false
  | n + 1, s =>
    let r := tickDevice s
    r.2 || hsDetectedWithin n r.1

/- ===================== example inputs ===================== -/

/-- Example 27-byte ADS1299 payload of zeros. -/
def rawZero : List Nat := List.replicate 27 0

/-- Example 27-byte payload with distinct leading bytes, separating payload
offsets 0..2 from offsets 3..5. -/
def rawDistinct : List Nat := [1, 2, 3, 4, 5, 6] ++ List.replicate 21 0

/-- Example well-formed data packet. -/
def packetZero : List Nat := encode_data_packet 0 rawZero

/-- Example well-formed handshake packet built by the host encoder. -/
def goodHandshake : List Nat := encode_handshake 0x60000000 0x01 0x04

/-- `goodHandshake` with its checksum byte (offset 9) altered to `0x00`. -/
def badHandshake : List Nat := goodHandshake.set 9 0x00

/-- Fresh device responder state (empty ring) with `badHandshake` pending in
the serial receive buffer. -/
def deviceFresh : DeviceState :=
  { ring := List.replicate 24 0, ring_head := 0, ring_tail := 0,
    ring_counter := 0, incoming := badHandshake, ts_ref := 0,
    ts_inited := false, baud := 9600 }

/-- Device responder whose ring has filled with 24 idle bytes, with a
well-formed handshake pending in the serial receive buffer. -/
def deviceFullRing : DeviceState :=
  { ring := List.replicate 24 0, ring_head := 0, ring_tail := 0,
    ring_counter := 24, incoming := goodHandshake, ts_ref := 0,
    ts_inited := false, baud := 9600 }

/-- Device responder state whose ring already holds the given received
bytes (the state `drain` produces from a fresh ring once 12 bytes have
arrived). -/
def ringDevice (bytes : List Nat) : DeviceState :=
  { ring := bytes ++ List.replicate 12 0, ring_head := 12, ring_tail := 0,
    ring_counter := 12, incoming := [], ts_ref := 0,
    ts_inited := false, baud := 9600 }

/-- A prepared, non-streaming host board (as left by `prepare_session`). -/
def boardReady : HostBoard :=
  { inited := true, is_streaming := false, keep_alive := false,
    thread_running := false, state := SYNC_TIMEOUT_ERROR }

/- ===================== bit-arithmetic helper lemmas ===================== -/

theorem two_mul_or (a b : Nat) : (2 * a) ||| (2 * b) = 2 * (a ||| b) := by
  have h := Nat.lor_bit false a false b
  simpa [Nat.bit_false] using h

theorem two_mul_or_add_one (a b : Nat) :
    (2 * a) ||| (2 * b + 1) = 2 * (a ||| b) + 1 := by
  have h := Nat.lor_bit false a true b
  simpa [Nat.bit_false, Nat.bit_true] using h

theorem pow_mul_or_of_lt :
    ∀ (n a b : Nat), b < 2 ^ n → (2 ^ n * a) ||| b = 2 ^ n * a + b := by
  intro n
  induction n with
  | zero =>
    intro a b hb
    interval_cases b
    simp
  | succ n ih =>
    intro a b hb
    have hb2 : b / 2 < 2 ^ n := by
      have h2 : (2 : Nat) ^ (n + 1) = 2 * 2 ^ n := by ring
      omega
    have hpow : (2 : Nat) ^ (n + 1) * a = 2 * (2 ^ n * a) := by ring
    rcases Nat.mod_two_eq_zero_or_one b with h | h
    · have hb' : b = 2 * (b / 2) := by omega
      rw [hpow, hb', two_mul_or, ih a (b / 2) hb2]
      omega
    · have hb' : b = 2 * (b / 2) + 1 := by omega
      rw [hpow, hb', two_mul_or_add_one, ih a (b / 2) hb2]
      omega

theorem mul_pow_or_of_lt (n a b : Nat) (hb : b < 2 ^ n) :
    (a * 2 ^ n) ||| b = a * 2 ^ n + b := by
  rw [Nat.mul_comm a (2 ^ n)]
  exact pow_mul_or_of_lt n a b hb

theorem and_255 (x : Nat) : x &&& 0xFF = x % 256 := by
  have h := Nat.and_pow_two_sub_one_eq_mod x 8
  norm_num at h
  exact h

/-- Reassembling a 32-bit value from its four big-endian byte extractions,
in the exact association order of the decoders. -/
theorem be4_reassemble (t : Nat) (h : t < 2 ^ 32) :
    ((((t >>> 24) &&& 0xFF) <<< 24) ||| (((t >>> 16) &&& 0xFF) <<< 16)) |||
      (((t >>> 8) &&& 0xFF) <<< 8) ||| (t &&& 0xFF) = t := by
  rw [and_255, and_255, and_255, and_255, Nat.shiftRight_eq_div_pow,
    Nat.shiftRight_eq_div_pow, Nat.shiftRight_eq_div_pow, Nat.shiftLeft_eq,
    Nat.shiftLeft_eq, Nat.shiftLeft_eq]
  set d3 := t / 2 ^ 24 % 256 with hd3
  set d2 := t / 2 ^ 16 % 256 with hd2
  set d1 := t / 2 ^ 8 % 256 with hd1
  have h3 : d3 < 256 := Nat.mod_lt _ (by norm_num)
  have h2 : d2 < 256 := Nat.mod_lt _ (by norm_num)
  have h1 : d1 < 256 := Nat.mod_lt _ (by norm_num)
  have e1 : d3 * 2 ^ 24 ||| d2 * 2 ^ 16 = d3 * 2 ^ 24 + d2 * 2 ^ 16 :=
    mul_pow_or_of_lt 24 d3 (d2 * 2 ^ 16) (by nlinarith)
  rw [e1]
  have k2 : d3 * 2 ^ 24 + d2 * 2 ^ 16 = (d3 * 2 ^ 8 + d2) * 2 ^ 16 := by ring
  have e2 : (d3 * 2 ^ 8 + d2) * 2 ^ 16 ||| d1 * 2 ^ 8 =
      (d3 * 2 ^ 8 + d2) * 2 ^ 16 + d1 * 2 ^ 8 :=
    mul_pow_or_of_lt 16 _ (d1 * 2 ^ 8) (by nlinarith)
  rw [k2, e2]
  have k3 : (d3 * 2 ^ 8 + d2) * 2 ^ 16 + d1 * 2 ^ 8 =
      ((d3 * 2 ^ 8 + d2) * 2 ^ 8 + d1) * 2 ^ 8 := by ring
  have e3 : ((d3 * 2 ^ 8 + d2) * 2 ^ 8 + d1) * 2 ^ 8 ||| t % 256 =
      ((d3 * 2 ^ 8 + d2) * 2 ^ 8 + d1) * 2 ^ 8 + t % 256 :=
    mul_pow_or_of_lt 8 _ (t % 256) (by omega)
  rw [k3, e3]
  rw [hd3, hd2, hd1]
  omega

/-- Reassembling a 24-bit code from its three big-endian byte extractions,
in the exact association order of `rawChannel`. -/
theorem be3_reassemble (c : Nat) (h : c < 2 ^ 24) :
    ((((c >>> 16) &&& 0xFF) <<< 16) ||| (((c >>> 8) &&& 0xFF) <<< 8)) |||
      (c &&& 0xFF) = c := by
  rw [and_255, and_255, and_255, Nat.shiftRight_eq_div_pow,
    Nat.shiftRight_eq_div_pow, Nat.shiftLeft_eq, Nat.shiftLeft_eq]
  set d2 := c / 2 ^ 16 % 256 with hd2
  set d1 := c / 2 ^ 8 % 256 with hd1
  have h2 : d2 < 256 := Nat.mod_lt _ (by norm_num)
  have h1 : d1 < 256 := Nat.mod_lt _ (by norm_num)
  have e1 : d2 * 2 ^ 16 ||| d1 * 2 ^ 8 = d2 * 2 ^ 16 + d1 * 2 ^ 8 :=
    mul_pow_or_of_lt 16 d2 (d1 * 2 ^ 8) (by nlinarith)
  rw [e1]
  have k2 : d2 * 2 ^ 16 + d1 * 2 ^ 8 = (d2 * 2 ^ 8 + d1) * 2 ^ 8 := by ring
  have e2 : (d2 * 2 ^ 8 + d1) * 2 ^ 8 ||| c % 256 =
      (d2 * 2 ^ 8 + d1) * 2 ^ 8 + c % 256 :=
    mul_pow_or_of_lt 8 _ (c % 256) (by omega)
  rw [k2, e2]
  rw [hd2, hd1]
  omega

/-- The decoder's sign extension agrees with 24-bit two's-complement
semantics on every 24-bit code. -/
theorem sign_extend_24_spec (value : Nat) (h : value < 2 ^ 24) :
    sign_extend_24 value = twos24 value := by
  have hbit : value &&& 0x800000 = (value.testBit 23).toNat * 2 ^ 23 := by
    have h8 := Nat.and_two_pow value 23
    norm_num at h8 ⊢
    exact h8
  by_cases hc : value < 2 ^ 23
  · have hfalse : value.testBit 23 = false := Nat.testBit_lt_two_pow hc
    rw [sign_extend_24, twos24, hbit, hfalse]
    have hc' : value < 8388608 := by omega
    simp [hc, hc']
  · have htrue : value.testBit 23 = true := by
      rw [Nat.testBit_to_div_mod]
      simp only [decide_eq_true_eq]
      omega
    have hor : value ||| 0xFF000000 = value + 0xFF000000 := by
      have hconst : (0xFF000000 : Nat) = 0xFF * 2 ^ 24 := by norm_num
      rw [Nat.lor_comm, hconst, mul_pow_or_of_lt 24 0xFF value h]
      omega
    rw [sign_extend_24, twos24, hbit, htrue]
    simp only [Bool.toNat_true, one_mul, if_neg hc]
    rw [if_pos (by norm_num), hor, toInt32]
    have hmod : (value + 0xFF000000) % 2 ^ 32 = value + 0xFF000000 := by omega
    rw [hmod, if_neg (by omega)]
    push_cast
    omega

/- ===================== checksum helper lemmas ===================== -/

theorem foldl_mod_add (l : List Nat) :
    ∀ a, l.foldl (fun x y => (x + y) % 256) (a % 256) = (a + l.sum) % 256 := by
  induction l with
  | nil => intro a; simp
  | cons b t ih =>
    intro a
    simp only [List.foldl_cons, List.sum_cons]
    have h1 : (a % 256 + b) % 256 = (a + b) % 256 := by omega
    rw [h1, ih (a + b)]
    omega

/-- The `uint8_t` accumulating checksum is the byte sum mod 256. -/
theorem calculate_checksum_eq_sum (l : List Nat) :
    calculate_checksum l = l.sum % 256 := by
  have h := foldl_mod_add l 0
  simpa [calculate_checksum] using h

/-- The host scan-loop checksum as a sum over the 32 checksummed bytes. -/
theorem hostChecksum_eq_sum (buffer : List Nat) (pos : Nat) :
    hostChecksum buffer pos =
      ((List.range 32).map (fun i => buffer.getD (pos + 2 + i) 0)).sum % 256 := by
  have h := foldl_mod_add ((List.range 32).map (fun i => buffer.getD (pos + 2 + i) 0)) 0
  rw [List.foldl_map] at h
  simpa [hostChecksum] using h

theorem getD_set_ne (l : List Nat) (i j a : Nat) (h : i ≠ j) :
    (l.set i a).getD j 0 = l.getD j 0 := by
  simp [List.getD_eq_getElem?_getD, List.getElem?_set_ne h]

theorem getD_set_self (l : List Nat) (i a : Nat) (h : i < l.length) :
    (l.set i a).getD i 0 = a := by
  simp [List.getD_eq_getElem?_getD, List.getElem?_set_self h]

/-- Exchanging one position in a sum over `List.range n`. -/
theorem sum_map_range_swap (f g : Nat → Nat) :
    ∀ n j : Nat, j < n → (∀ i, i < n → i ≠ j → f i = g i) →
      ((List.range n).map f).sum + g j = ((List.range n).map g).sum + f j := by
  intro n
  induction n with
  | zero => intro j hj _; omega
  | succ n ih =>
    intro j hj hfg
    rw [List.sum_range_succ, List.sum_range_succ]
    by_cases hjn : j = n
    · rw [hjn]
      have hmap : (List.range n).map f = (List.range n).map g :=
        List.map_congr_left (fun a ha =>
          hfg a (Nat.lt_succ_of_lt (List.mem_range.mp ha))
            (by have := List.mem_range.mp ha; omega))
      rw [hmap]
      omega
    · have hn : f n = g n := hfg n (by omega) (by omega)
      have hh := ih j (by omega) (fun i hi hne => hfg i (by omega) hne)
      omega

set_option maxRecDepth 10000 in
/-- Effect of flipping bit `k` of a byte: the byte changes by exactly
`2 ^ k`, up or down, and stays a byte. -/
theorem xor_flip_fin :
    ∀ (b : Fin 256) (k : Fin 8),
      (((b : Nat) ^^^ 2 ^ (k : Nat)) = (b : Nat) + 2 ^ (k : Nat) ∨
        (b : Nat) = ((b : Nat) ^^^ 2 ^ (k : Nat)) + 2 ^ (k : Nat)) ∧
        ((b : Nat) ^^^ 2 ^ (k : Nat)) < 256 := by decide

theorem xor_flip (b k : Nat) (hb : b < 256) (hk : k < 8) :
    ((b ^^^ 2 ^ k) = b + 2 ^ k ∨ b = (b ^^^ 2 ^ k) + 2 ^ k) ∧
      (b ^^^ 2 ^ k) < 256 :=
  xor_flip_fin ⟨b, hb⟩ ⟨k, hk⟩

/- ===================== scan-loop lemmas ===================== -/

theorem scanLoop_done (buffer : List Nat) (pos : Nat)
    (h : buffer.length < pos + PACKET_TOTAL_SIZE) :
    scanLoop buffer pos = ([], pos) := by
  rw [scanLoop]
  rw [if_neg (by omega)]

/-- On a marker or checksum mismatch the scan offset advances by exactly one
byte. -/
theorem scanLoop_step_invalid (buffer : List Nat) (pos : Nat)
    (hg : pos + PACKET_TOTAL_SIZE ≤ buffer.length)
    (hv : isValidWindow buffer pos = false) :
    scanLoop buffer pos = scanLoop buffer (pos + 1) := by
  conv_lhs => rw [scanLoop]
  rw [if_pos hg, hv]
  simp

/-- On a validated window the packet is decoded and the offset advances by
the full packet size. -/
theorem scanLoop_step_valid (buffer : List Nat) (pos : Nat)
    (hg : pos + PACKET_TOTAL_SIZE ≤ buffer.length)
    (hv : isValidWindow buffer pos = true) :
    scanLoop buffer pos =
      (decodeAt buffer pos :: (scanLoop buffer (pos + PACKET_TOTAL_SIZE)).1,
        (scanLoop buffer (pos + PACKET_TOTAL_SIZE)).2) := by
  conv_lhs => rw [scanLoop]
  rw [if_pos hg, hv]
  simp

/-- A run of positions with no valid window is skipped one byte at a time. -/
theorem scanLoop_skip (buffer : List Nat) :
    ∀ len pos : Nat,
      (∀ j, pos ≤ j → j < pos + len → isValidWindow buffer j = false) →
      pos + len + PACKET_TOTAL_SIZE ≤ buffer.length →
      scanLoop buffer pos = scanLoop buffer (pos + len) := by
  intro len
  induction len with
  | zero => intro pos _ _; simp
  | succ len ih =>
    intro pos hbad hlen
    have h37 : PACKET_TOTAL_SIZE = 37 := rfl
    have h1 : scanLoop buffer pos = scanLoop buffer (pos + 1) :=
      scanLoop_step_invalid buffer pos (by omega)
        (hbad pos (Nat.le_refl _) (by omega))
    have h2 := ih (pos + 1) (fun j hj1 hj2 => hbad j (by omega) (by omega))
      (by omega)
    have e : pos + 1 + len = pos + (len + 1) := by omega
    rw [h1, h2, e]

/-- The final scan offset (the erase count) never exceeds the buffer size. -/
theorem scanLoop_finalPos_le (buffer : List Nat) (pos : Nat)
    (h : pos ≤ buffer.length) :
    (scanLoop buffer pos).2 ≤ buffer.length := by
  rw [scanLoop]
  split
  · split
    · have h37 : PACKET_TOTAL_SIZE = 37 := rfl
      have := scanLoop_finalPos_le buffer (pos + PACKET_TOTAL_SIZE) (by omega)
      simpa using this
    · have h37 : PACKET_TOTAL_SIZE = 37 := rfl
      exact scanLoop_finalPos_le buffer (pos + 1) (by omega)
  · simpa using h
termination_by buffer.length - pos
decreasing_by
  · simp only [PACKET_TOTAL_SIZE] at *; omega
  · simp only [PACKET_TOTAL_SIZE] at *; omega

/-- Earlier revision: an end-marker mismatch (start marker and checksum
having passed) advances the offset by exactly one byte. -/
theorem scanLoop000_step_end_mismatch (buffer : List Nat) (pos : Nat)
    (hg : pos + PACKET_TOTAL_SIZE ≤ buffer.length)
    (hs : isStart000 buffer pos = true)
    (hc : checksumOk000 buffer pos = true)
    (he : endOk000 buffer pos = false) :
    scanLoop000 buffer pos = scanLoop000 buffer (pos + 1) := by
  have h37 : PACKET_TOTAL_SIZE = 37 := rfl
  have hnavail : ¬(buffer.length ≤ pos + 35 + 1) := by omega
  conv_lhs => rw [scanLoop000]
  simp [hs, hc, he, hg, hnavail]

/-- Earlier revision: a checksum mismatch advances the offset by exactly one
byte. -/
theorem scanLoop000_step_checksum_mismatch (buffer : List Nat) (pos : Nat)
    (hg : pos + PACKET_TOTAL_SIZE ≤ buffer.length)
    (hs : isStart000 buffer pos = true)
    (hc : checksumOk000 buffer pos = false) :
    scanLoop000 buffer pos = scanLoop000 buffer (pos + 1) := by
  conv_lhs => rw [scanLoop000]
  rw [if_pos hg, hs, hc]
  simp

/- ===================== list access helper lemmas ===================== -/

theorem getD_append_ge (l1 l2 : List Nat) (n : Nat) (h : l1.length ≤ n) :
    (l1 ++ l2).getD n 0 = l2.getD (n - l1.length) 0 := by
  simp [List.getD_eq_getElem?_getD, List.getElem?_append_right h]

theorem getD_append_lt (l1 l2 : List Nat) (n : Nat) (h : n < l1.length) :
    (l1 ++ l2).getD n 0 = l1.getD n 0 := by
  simp [List.getD_eq_getElem?_getD, List.getElem?_append_left h]

theorem sum_map_getD (raw : List Nat) :
    ((List.range raw.length).map (fun j => raw.getD j 0)).sum = raw.sum := by
  induction raw with
  | nil => simp
  | cons a t ih =>
    rw [List.length_cons, List.range_succ_eq_map]
    simp only [List.map_cons, List.map_map, List.sum_cons]
    have hcomp : ((fun j => (a :: t).getD j 0) ∘ Nat.succ) =
        fun j => t.getD j 0 := by
      funext j
      simp
    rw [hcomp, ih]
    simp

/- ===================== packet structure lemmas ===================== -/

/-- The framer output, split as marker ++ checksummed body ++ trailer
(`++` associates to the left). -/
theorem encode_data_packet_eq (ts : Nat) (raw : List Nat) :
    encode_data_packet ts raw =
      [0xAB, 0xCD] ++
        ([PACKET_MSG_LENGTH, (ts >>> 24) &&& 0xFF, (ts >>> 16) &&& 0xFF,
          (ts >>> 8) &&& 0xFF, ts &&& 0xFF] ++ raw) ++
        [calculate_checksum (PACKET_MSG_LENGTH :: ((ts >>> 24) &&& 0xFF) ::
            ((ts >>> 16) &&& 0xFF) :: ((ts >>> 8) &&& 0xFF) :: (ts &&& 0xFF) :: raw),
          0xDC, 0xBA] := rfl

theorem encode_data_packet_length (ts : Nat) (raw : List Nat) :
    (encode_data_packet ts raw).length = raw.length + 10 := by
  rw [encode_data_packet_eq]
  simp

/-- The host checksum of a framed buffer depends exactly on the 32 bytes
after the two marker bytes. -/
theorem hostChecksum_append (l1 l2 l3 : List Nat) (h1 : l1.length = 2)
    (h2 : l2.length = 32) :
    hostChecksum (l1 ++ l2 ++ l3) 0 = l2.sum % 256 := by
  rw [hostChecksum_eq_sum]
  have hmap : (List.range 32).map (fun i => (l1 ++ l2 ++ l3).getD (0 + 2 + i) 0) =
      (List.range 32).map (fun i => l2.getD i 0) := by
    apply List.map_congr_left
    intro i hi
    have hi32 := List.mem_range.mp hi
    rw [getD_append_lt (l1 ++ l2) l3 (0 + 2 + i) (by simp; omega)]
    rw [getD_append_ge l1 l2 (0 + 2 + i) (by omega)]
    have e : 0 + 2 + i - l1.length = i := by omega
    rw [e]
  rw [hmap]
  have hr : (List.range 32) = List.range l2.length := by rw [h2]
  rw [hr, sum_map_getD]

/-- The scan-loop checksum of a framed packet equals the checksum byte the
framer stored. -/
theorem hostChecksum_encode (ts : Nat) (raw : List Nat) (hraw : raw.length = 27) :
    hostChecksum (encode_data_packet ts raw) 0 =
      calculate_checksum (PACKET_MSG_LENGTH :: ((ts >>> 24) &&& 0xFF) ::
        ((ts >>> 16) &&& 0xFF) :: ((ts >>> 8) &&& 0xFF) :: (ts &&& 0xFF) :: raw) := by
  rw [encode_data_packet_eq,
    hostChecksum_append _ _ _ (by simp) (by simp [hraw]),
    calculate_checksum_eq_sum]
  simp

/-- Byte 34 of a framed packet is the stored checksum, and bytes 35 and 36
are the end marker `0xDC 0xBA`. -/
theorem encode_getD_trailer (ts : Nat) (raw : List Nat) (hraw : raw.length = 27) :
    (encode_data_packet ts raw).getD 34 0 =
      calculate_checksum (PACKET_MSG_LENGTH :: ((ts >>> 24) &&& 0xFF) ::
        ((ts >>> 16) &&& 0xFF) :: ((ts >>> 8) &&& 0xFF) :: (ts &&& 0xFF) :: raw) ∧
      (encode_data_packet ts raw).getD 35 0 = 0xDC ∧
      (encode_data_packet ts raw).getD 36 0 = 0xBA := by
  rw [encode_data_packet_eq]
  have hlen : ([0xAB, 0xCD] ++
      ([PACKET_MSG_LENGTH, (ts >>> 24) &&& 0xFF, (ts >>> 16) &&& 0xFF,
        (ts >>> 8) &&& 0xFF, ts &&& 0xFF] ++ raw)).length = 34 := by
    simp
    omega
  refine ⟨?_, ?_, ?_⟩
  · rw [getD_append_ge _ _ 34 (by omega), hlen]
    rfl
  · rw [getD_append_ge _ _ 35 (by omega), hlen]
    rfl
  · rw [getD_append_ge _ _ 36 (by omega), hlen]
    rfl


/-- Every framed packet passes the definitive host window validation. -/
theorem isValidWindow_encode (ts : Nat) (raw : List Nat) (hraw : raw.length = 27) :
    isValidWindow (encode_data_packet ts raw) 0 = true := by
  have h34 := (encode_getD_trailer ts raw hraw).1
  have hchk := hostChecksum_encode ts raw hraw
  simp only [isValidWindow, Bool.and_eq_true, beq_iff_eq]
  refine ⟨⟨rfl, rfl⟩, ?_⟩
  rw [hchk, h34]

/-- Bytes 7..33 of a framed packet are the raw payload bytes. -/
theorem encode_getD_payload (ts : Nat) (raw : List Nat) (hraw : raw.length = 27)
    (n : Nat) (h7 : 7 ≤ n) (h34 : n < 34) :
    (encode_data_packet ts raw).getD n 0 = raw.getD (n - 7) 0 := by
  rw [encode_data_packet_eq]
  rw [getD_append_lt _ _ n (by simp; omega)]
  rw [getD_append_ge [0xAB, 0xCD] _ n (by simp; omega)]
  rw [getD_append_ge _ raw _ (by simp; omega)]
  have e : n - [(0xAB : Nat), 0xCD].length -
      [PACKET_MSG_LENGTH, (ts >>> 24) &&& 0xFF, (ts >>> 16) &&& 0xFF,
        (ts >>> 8) &&& 0xFF, ts &&& 0xFF].length = n - 7 := by
    simp
    omega
  rw [e]

/- ===================== device responder lemmas ===================== -/

theorem drainGo_counter_mono :
    ∀ (inc ring : List Nat) (head counter : Nat),
      counter ≤ (drainGo inc ring head counter).2.2.2 := by
  intro inc
  induction inc with
  | nil => intro ring head counter; exact Nat.le_refl _
  | cons b rest ih =>
    intro ring head counter
    simp only [drainGo]
    split
    · exact Nat.le_trans (Nat.le_succ _) (ih _ _ _)
    · exact Nat.le_refl _

theorem drain_ring_counter_mono (s : DeviceState) :
    s.ring_counter ≤ (drain s).ring_counter := by
  simp only [drain]
  exact drainGo_counter_mono s.incoming s.ring s.ring_head s.ring_counter

theorem drain_ring_tail_eq (s : DeviceState) :
    (drain s).ring_tail = s.ring_tail := rfl

theorem applyBaud_counter_tail (s : DeviceState) (idx : Nat) :
    (applyBaud s idx).ring_counter = s.ring_counter ∧
      (applyBaud s idx).ring_tail = s.ring_tail := by
  unfold applyBaud
  constructor
  · split
    · split
      · rfl
      · rfl
    · rfl
  · split
    · split
      · rfl
      · rfl
    · rfl

theorem applyHandshake_counter_tail (s : DeviceState) (idx : Nat) :
    (applyHandshake s idx).ring_counter = s.ring_counter ∧
      (applyHandshake s idx).ring_tail = s.ring_tail := by
  unfold applyHandshake
  exact applyBaud_counter_tail s idx

/-- The responder never removes a byte from its ring: `ring_counter` never
decreases and `ring_tail` never moves. -/
theorem waitForTimestamp_counter_mono (s : DeviceState) :
    s.ring_counter ≤ (waitForTimestamp s).1.ring_counter ∧
      (waitForTimestamp s).1.ring_tail = s.ring_tail := by
  have hd1 := drain_ring_counter_mono s
  have hd2 := drain_ring_tail_eq s
  unfold waitForTimestamp
  split
  · exact ⟨hd1, hd2⟩
  · split
    · rename_i idx heq
      have ha := applyHandshake_counter_tail (drain s)
        (((drain s).ring_tail + idx) % RING_BUFFER_SIZE)
      refine ⟨?_, ?_⟩
      · show s.ring_counter ≤ (applyHandshake (drain s) _).ring_counter
        rw [ha.1]
        exact hd1
      · show (applyHandshake (drain s) _).ring_tail = s.ring_tail
        rw [ha.2]
        exact hd2
    · exact ⟨hd1, hd2⟩

/-- Once the ring is full, the drain loop moves nothing. -/
theorem drain_of_full (s : DeviceState)
    (h : RING_BUFFER_SIZE ≤ s.ring_counter) : drain s = s := by
  rcases s with ⟨ring, head, tail, counter, incoming, tsr, tsi, baud⟩
  simp only [RING_BUFFER_SIZE] at h
  cases incoming with
  | nil => rfl
  | cons b rest =>
    simp only [drain, drainGo]
    rw [if_neg (by simp only [RING_BUFFER_SIZE]; omega)]

theorem waitForTimestamp_full_none (s : DeviceState)
    (hfull : RING_BUFFER_SIZE ≤ s.ring_counter) (hscan : scanRing s = none) :
    waitForTimestamp s = (s, false) := by
  unfold waitForTimestamp
  rw [drain_of_full s hfull]
  rw [if_neg (by simp only [RING_BUFFER_SIZE] at hfull; omega)]
  rw [hscan]

theorem tickDevice_fix (s : DeviceState)
    (hfull : RING_BUFFER_SIZE ≤ s.ring_counter) (hscan : scanRing s = none) :
    tickDevice s = (s, false) := by
  unfold tickDevice
  split
  · exact waitForTimestamp_full_none s hfull hscan
  · rfl

/-- A state on which a tick makes no progress never detects a handshake. -/
theorem tick_fix_not_detected (s : DeviceState)
    (hfix : tickDevice s = (s, false)) :
    ∀ n, hsDetectedWithin n s = false := by
  intro n
  induction n with
  | zero => rfl
  | succ n ih =>
    show ((tickDevice s).2 || hsDetectedWithin n (tickDevice s).1) = false
    rw [hfix]
    simpa using ih

/- ===================== C1 / C9 ===================== -/

/-- C1 (amended): the device-side responder does not verify the handshake
checksum byte.  Any 12-byte window whose start-marker bytes and type byte
match is accepted: `waitForTimestamp` returns `true` and records the
received timestamp, for every value of the checksum byte. -/
theorem c1_no_checksum_verification (t3 t2 t1 t0 reg_addr reg_val chk : Nat) :
    (waitForTimestamp (ringDevice
        [0xAA, 0xBB, 0x02, t3, t2, t1, t0, reg_addr, reg_val, chk, 0xCC, 0xDD])).2 =
      true ∧
      (waitForTimestamp (ringDevice
        [0xAA, 0xBB, 0x02, t3, t2, t1, t0, reg_addr, reg_val, chk, 0xCC, 0xDD])).1.ts_ref =
        (t3 <<< 24) ||| (t2 <<< 16) ||| (t1 <<< 8) ||| t0 ∧
      (waitForTimestamp (ringDevice
        [0xAA, 0xBB, 0x02, t3, t2, t1, t0, reg_addr, reg_val, chk, 0xCC, 0xDD])).1.ts_inited =
        true :=
  ⟨rfl, rfl, rfl⟩

/-- C1 counterexample: a handshake packet with only its checksum byte
altered (from `0x67` to `0x00`) is still accepted end-to-end by the
responder — the timestamp reference and the baud rate both change, refuting
"rejected and causes no change". -/
theorem c1_altered_checksum_accepted :
    badHandshake.getD 9 0 ≠ goodHandshake.getD 9 0 ∧
      (waitForTimestamp deviceFresh).2 = true ∧
      (waitForTimestamp deviceFresh).1.ts_ref = 0x60000000 ∧
      (waitForTimestamp deviceFresh).1.ts_inited = true ∧
      (waitForTimestamp deviceFresh).1.baud = 115200 := by decide

/-- C9 (amended): the responder never frees ring space (`ring_counter`
never decreases, `ring_tail` never moves); once the ring is full and holds
no marker triple, a tick changes nothing and no pending handshake is ever
detected, however many ticks run. -/
theorem c9_ring_never_drained (s : DeviceState)
    (hfull : s.ring_counter = RING_BUFFER_SIZE)
    (hscan : scanRing s = none) :
    waitForTimestamp s = (s, false) ∧
      (∀ n, hsDetectedWithin n s = false) ∧
      (∀ s' : DeviceState,
        s'.ring_counter ≤ (waitForTimestamp s').1.ring_counter ∧
          (waitForTimestamp s').1.ring_tail = s'.ring_tail) := by
  have hle : RING_BUFFER_SIZE ≤ s.ring_counter := Nat.le_of_eq hfull.symm
  refine ⟨waitForTimestamp_full_none s hle hscan, ?_, ?_⟩
  · exact tick_fix_not_detected s (tickDevice_fix s hle hscan)
  · exact waitForTimestamp_counter_mono

/-- C9 witness: the amended theorem applied to the saturated example state. -/
theorem c9_ring_never_drained_witness :
    waitForTimestamp deviceFullRing = (deviceFullRing, false) ∧
      hsDetectedWithin 7 deviceFullRing = false :=
  ⟨(c9_ring_never_drained deviceFullRing (by decide) (by decide)).1,
    (c9_ring_never_drained deviceFullRing (by decide) (by decide)).2.1 7⟩

/-- C9 counterexample: with the ring saturated by 24 idle bytes, a
well-formed handshake pending in the serial buffer is never detected: the
tick is a no-op, so the packet is permanently missed. -/
theorem c9_pending_handshake_never_detected :
    12 ≤ deviceFullRing.incoming.length ∧
      deviceFullRing.incoming = encode_handshake 0x60000000 0x01 0x04 ∧
      tickDevice deviceFullRing = (deviceFullRing, false) ∧
      hsDetectedWithin 1000 deviceFullRing = false := by
  refine ⟨by decide, rfl, by decide, ?_⟩
  exact tick_fix_not_detected deviceFullRing (by decide) 1000

/- ===================== read-loop lemmas ===================== -/

/-- A read returning no bytes leaves the definitive loop state unchanged
(the code only sleeps 1 ms and continues). -/
theorem rt_iter_empty (s : RTState) : rt_iter s [] = s := rfl

theorem part001_run_all_empty :
    ∀ (chunks : List (List Nat)) (s : RTState),
      (∀ c ∈ chunks, c = []) → part001_run chunks s = s := by
  intro chunks
  induction chunks with
  | nil => intro s _; rfl
  | cons c t ih =>
    intro s h
    have hc : c = [] := h c (List.mem_cons_self _ _)
    have ht : ∀ c' ∈ t, c' = [] := fun c' hc' => h c' (List.mem_cons_of_mem _ hc')
    show part001_run t (rt_iter s c) = s
    rw [hc, rt_iter_empty]
    exact ih s ht

theorem rt000_iter_exited (s : RT0State) (h : s.exited = true) (c : List Nat) :
    rt000_iter s c = s := by
  unfold rt000_iter
  rw [if_pos h]

theorem rt000_run_exited :
    ∀ (chunks : List (List Nat)) (s : RT0State), s.exited = true →
      rt000_run chunks s = s := by
  intro chunks
  induction chunks with
  | nil => intro s _; rfl
  | cons c t ih =>
    intro s h
    show rt000_run t (rt000_iter s c) = s
    rw [rt000_iter_exited s h]
    exact ih s h

/-- Running the earlier revision's loop on enough consecutive failed reads
reaches the ceiling: the loop exits with `SYNC_TIMEOUT_ERROR` after
notifying the waiter. -/
theorem rt000_fail_run :
    ∀ (m : Nat) (s : RT0State), s.exited = false → 1 ≤ m →
      MAX_CONSECUTIVE_FAILURES ≤ s.cnt + m →
      (rt000_run (List.replicate m []) s).exited = true ∧
        (rt000_run (List.replicate m []) s).state = SYNC_TIMEOUT_ERROR ∧
        (rt000_run (List.replicate m []) s).notified = true := by
  intro m
  induction m with
  | zero => intro s _ h1 _; omega
  | succ m ih =>
    intro s hx h1 hc
    have hM : MAX_CONSECUTIVE_FAILURES = 1000 := rfl
    have hstep : rt000_run (List.replicate (m + 1) []) s =
        rt000_run (List.replicate m []) (rt000_iter s []) := rfl
    rw [hstep]
    by_cases hmax : MAX_CONSECUTIVE_FAILURES ≤ s.cnt + 1
    · have hiter : rt000_iter s [] =
          { s with
            cnt := s.cnt + 1, state := SYNC_TIMEOUT_ERROR,
            notified := true, exited := true } := by
        simp [rt000_iter, hx, hmax]
      rw [hiter, rt000_run_exited _ _ rfl]
      exact ⟨rfl, rfl, rfl⟩
    · have hiter : rt000_iter s [] = { s with cnt := s.cnt + 1 } := by
        simp [rt000_iter, hx, hmax]
      rw [hiter]
      exact ih _ hx (by omega) (by simp; omega)

/- ===================== C4 / C5 ===================== -/

/-- C4: with a transport that never returns data the read thread never
signals success, so `start_stream` takes the timeout branch: it returns
`SYNC_TIMEOUT_ERROR` with the thread flagged stopped and joined, and a
subsequent `stop_stream` reports `STREAM_THREAD_IS_NOT_RUNNING`.  The
waiter's configured bound is the 10-second `cv.wait_for` timeout. -/
theorem c4_sync_timeout (chunks : List (List Nat)) (b : HostBoard)
    (hempty : ∀ c ∈ chunks, c = [])
    (hinit : b.inited = true) (hstream : b.is_streaming = false) :
    ((part001_run chunks initRT).state == STATUS_OK) = false ∧
      start_stream b true ((part001_run chunks initRT).state == STATUS_OK) =
        (SYNC_TIMEOUT_ERROR,
          { b with keep_alive := false, thread_running := false }) ∧
      (start_stream b true
        ((part001_run chunks initRT).state == STATUS_OK)).2.thread_running = false ∧
      (start_stream b true
        ((part001_run chunks initRT).state == STATUS_OK)).2.is_streaming = false ∧
      (stop_stream (start_stream b true
        ((part001_run chunks initRT).state == STATUS_OK)).2).1 =
        STREAM_THREAD_IS_NOT_RUNNING ∧
      START_STREAM_TIMEOUT_SECONDS = 10 := by
  have hrun : part001_run chunks initRT = initRT :=
    part001_run_all_empty chunks initRT hempty
  rw [hrun]
  have hbeq : (initRT.state == STATUS_OK) = false := by decide
  rw [hbeq]
  have hss : start_stream b true false =
      (SYNC_TIMEOUT_ERROR,
        { b with keep_alive := false, thread_running := false }) := by
    unfold start_stream
    rw [hinit, hstream]
    rfl
  refine ⟨rfl, hss, ?_, ?_, ?_, rfl⟩
  · rw [hss]
  · rw [hss]
    exact hstream
  · rw [hss]
    simp [stop_stream, hstream]

/-- C4 witness: the theorem at a two-iteration empty read trace and a
prepared board. -/
theorem c4_sync_timeout_witness :
    ((part001_run [[], []] initRT).state == STATUS_OK) = false ∧
      (stop_stream (start_stream boardReady true
        ((part001_run [[], []] initRT).state == STATUS_OK)).2).1 =
        STREAM_THREAD_IS_NOT_RUNNING :=
  ⟨(c4_sync_timeout [[], []] boardReady (by decide) rfl rfl).1,
    (c4_sync_timeout [[], []] boardReady (by decide) rfl rfl).2.2.2.2.1⟩

/-- C5 (amended): the earlier revision's read loop reaches its
`MAX_CONSECUTIVE_FAILURES = 1000` ceiling on consecutive failed reads, sets
`SYNC_TIMEOUT_ERROR`, notifies the waiter and exits; the definitive
revision's loop instead retries failed reads unboundedly — any number of
consecutive failed reads leaves its state untouched (only the waiter's own
10-second timeout in `start_stream` bounds the wait). -/
theorem c5_failure_ceiling (m : Nat) (hm : MAX_CONSECUTIVE_FAILURES ≤ m) :
    (rt000_run (List.replicate m []) initRT0).exited = true ∧
      (rt000_run (List.replicate m []) initRT0).state = SYNC_TIMEOUT_ERROR ∧
      (rt000_run (List.replicate m []) initRT0).notified = true ∧
      (∀ n, part001_run (List.replicate n []) initRT = initRT) := by
  have hM : MAX_CONSECUTIVE_FAILURES = 1000 := rfl
  have h := rt000_fail_run m initRT0 rfl (by omega) (by simpa [initRT0] using hm)
  refine ⟨h.1, h.2.1, h.2.2, ?_⟩
  intro n
  exact part001_run_all_empty _ _ (fun c hc => List.eq_of_mem_replicate hc)

/-- C5 witness: the ceiling at exactly 1000 failures, and the definitive
loop unchanged after 2000 failures. -/
theorem c5_failure_ceiling_witness :
    (rt000_run (List.replicate 1000 []) initRT0).exited = true ∧
      part001_run (List.replicate 2000 []) initRT = initRT :=
  ⟨(c5_failure_ceiling 1000 (by decide)).1,
    (c5_failure_ceiling 1000 (by decide)).2.2.2 2000⟩

/-- C5 counterexample: the definitive read loop never declares a timeout on
failed reads — after 2000 consecutive empty reads (double the earlier
revision's ceiling) its state is unchanged, the waiter was never notified,
and the loop has not exited. -/
theorem c5_unbounded_retry :
    part001_run (List.replicate 2000 []) initRT = initRT ∧
      initRT.state = SYNC_TIMEOUT_ERROR ∧ initRT.notified = false := by
  refine ⟨?_, rfl, rfl⟩
  exact part001_run_all_empty _ _ (fun c hc => List.eq_of_mem_replicate hc)

/- ===================== decode/encode helper lemmas ===================== -/

theorem decodeAt_channels_getD (buffer : List Nat) (pos k : Nat) (hk : k < 8) :
    (decodeAt buffer pos).channels.getD k 0 = decodeChannel buffer pos k := by
  unfold decodeAt
  rw [List.getD_eq_getElem _ _ (by simp [hk])]
  simp

theorem rawChannel_encode (ts : Nat) (raw : List Nat) (hraw : raw.length = 27)
    (k : Nat) (hk : k < 8) :
    rawChannel (encode_data_packet ts raw) 0 k =
      (raw.getD (3 + k * 3) 0 <<< 16) ||| (raw.getD (3 + k * 3 + 1) 0 <<< 8) |||
        raw.getD (3 + k * 3 + 2) 0 := by
  unfold rawChannel
  rw [encode_getD_payload ts raw hraw (0 + 7 + 3 + k * 3) (by omega) (by omega)]
  rw [encode_getD_payload ts raw hraw (0 + 7 + 3 + k * 3 + 1) (by omega) (by omega)]
  rw [encode_getD_payload ts raw hraw (0 + 7 + 3 + k * 3 + 2) (by omega) (by omega)]
  have e1 : 0 + 7 + 3 + k * 3 - 7 = 3 + k * 3 := by omega
  have e2 : 0 + 7 + 3 + k * 3 + 1 - 7 = 3 + k * 3 + 1 := by omega
  have e3 : 0 + 7 + 3 + k * 3 + 2 - 7 = 3 + k * 3 + 2 := by omega
  rw [e1, e2, e3]

theorem decodeTimestamp_encode (ts : Nat) (raw : List Nat) (hts : ts < 2 ^ 32) :
    decodeTimestamp (encode_data_packet ts raw) 0 = ts := by
  have h : decodeTimestamp (encode_data_packet ts raw) 0 =
      ((((ts >>> 24) &&& 0xFF) <<< 24) ||| (((ts >>> 16) &&& 0xFF) <<< 16)) |||
        (((ts >>> 8) &&& 0xFF) <<< 8) ||| (ts &&& 0xFF) := rfl
  rw [h]
  exact be4_reassemble ts hts

theorem packChannelCodes_length :
    ∀ codes : List Nat, (packChannelCodes codes).length = 3 * codes.length := by
  intro codes
  induction codes with
  | nil => rfl
  | cons c t ih =>
    have hc : packChannelCodes (c :: t) =
        [(c >>> 16) &&& 0xFF, (c >>> 8) &&& 0xFF, c &&& 0xFF] ++
          packChannelCodes t := rfl
    rw [hc]
    simp [ih]
    omega

theorem packChannelCodes_getD :
    ∀ (codes : List Nat) (k : Nat), k < codes.length →
      (packChannelCodes codes).getD (k * 3) 0 = (codes.getD k 0 >>> 16) &&& 0xFF ∧
        (packChannelCodes codes).getD (k * 3 + 1) 0 = (codes.getD k 0 >>> 8) &&& 0xFF ∧
        (packChannelCodes codes).getD (k * 3 + 2) 0 = codes.getD k 0 &&& 0xFF := by
  intro codes
  induction codes with
  | nil => intro k hk; simp at hk
  | cons c t ih =>
    intro k hk
    have hc : packChannelCodes (c :: t) =
        [(c >>> 16) &&& 0xFF, (c >>> 8) &&& 0xFF, c &&& 0xFF] ++
          packChannelCodes t := rfl
    cases k with
    | zero => exact ⟨rfl, rfl, rfl⟩
    | succ k =>
      have hk' : k < t.length := by simp at hk; omega
      have iht := ih k hk'
      rw [hc]
      refine ⟨?_, ?_, ?_⟩
      · rw [getD_append_ge _ _ ((k + 1) * 3)
          (by simp only [List.length_cons, List.length_nil]; omega)]
        have e : (k + 1) * 3 -
            ([(c >>> 16) &&& 0xFF, (c >>> 8) &&& 0xFF, c &&& 0xFF] : List Nat).length =
            k * 3 := by
          simp only [List.length_cons, List.length_nil]
          omega
        rw [e]
        exact iht.1
      · rw [getD_append_ge _ _ ((k + 1) * 3 + 1)
          (by simp only [List.length_cons, List.length_nil]; omega)]
        have e : (k + 1) * 3 + 1 -
            ([(c >>> 16) &&& 0xFF, (c >>> 8) &&& 0xFF, c &&& 0xFF] : List Nat).length =
            k * 3 + 1 := by
          simp only [List.length_cons, List.length_nil]
          omega
        rw [e]
        exact iht.2.1
      · rw [getD_append_ge _ _ ((k + 1) * 3 + 2)
          (by simp only [List.length_cons, List.length_nil]; omega)]
        have e : (k + 1) * 3 + 2 -
            ([(c >>> 16) &&& 0xFF, (c >>> 8) &&& 0xFF, c &&& 0xFF] : List Nat).length =
            k * 3 + 2 := by
          simp only [List.length_cons, List.length_nil]
          omega
        rw [e]
        exact iht.2.2

theorem raw_status_getD (status rest : List Nat) (hst : status.length = 3)
    (n : Nat) (h3 : 3 ≤ n) :
    (status ++ rest).getD n 0 = rest.getD (n - 3) 0 := by
  rw [getD_append_ge _ _ n (by omega)]
  rw [hst]

theorem decodeChannel_encode (ts : Nat) (status codes : List Nat)
    (hst : status.length = 3) (hcl : codes.length = 8)
    (k : Nat) (hk : k < 8) (hcode : codes.getD k 0 < 2 ^ 24) :
    decodeChannel (encode_data_packet ts (status ++ packChannelCodes codes)) 0 k =
      twos24 (codes.getD k 0) := by
  have hraw : (status ++ packChannelCodes codes).length = 27 := by
    simp [packChannelCodes_length, hst, hcl]
  unfold decodeChannel
  rw [rawChannel_encode ts _ hraw k hk]
  rw [raw_status_getD status _ hst (3 + k * 3) (by omega)]
  rw [raw_status_getD status _ hst (3 + k * 3 + 1) (by omega)]
  rw [raw_status_getD status _ hst (3 + k * 3 + 2) (by omega)]
  have e1 : 3 + k * 3 - 3 = k * 3 := by omega
  have e2 : 3 + k * 3 + 1 - 3 = k * 3 + 1 := by omega
  have e3 : 3 + k * 3 + 2 - 3 = k * 3 + 2 := by omega
  rw [e1, e2, e3]
  have hp := packChannelCodes_getD codes k (by omega)
  rw [hp.1, hp.2.1, hp.2.2]
  rw [be3_reassemble _ hcode]
  exact sign_extend_24_spec _ hcode

/- ===================== C2 / C6 ===================== -/

/-- C2 (amended): the host decoder reads channel `k` of a framed packet from
payload offsets `3k + 3 .. 3k + 5` — the three leading ADS1299 status bytes
at the start of the 27-byte payload are skipped once (`idx = buffer_pos + 7
+ 3 + ch * 3`), not offsets `3k .. 3k + 2`. -/
theorem c2_payload_offsets (ts : Nat) (raw : List Nat) (hraw : raw.length = 27)
    (k : Nat) (hk : k < 8) :
    (decodeAt (encode_data_packet ts raw) 0).channels.getD k 0 =
      sign_extend_24 ((raw.getD (3 + k * 3) 0 <<< 16) |||
        (raw.getD (3 + k * 3 + 1) 0 <<< 8) ||| raw.getD (3 + k * 3 + 2) 0) := by
  rw [decodeAt_channels_getD _ _ _ hk]
  unfold decodeChannel
  rw [rawChannel_encode ts raw hraw k hk]

/-- C2 witness: the amended offsets at channel 0 of a concrete packet. -/
theorem c2_payload_offsets_witness :
    (decodeAt (encode_data_packet 0 rawDistinct) 0).channels.getD 0 0 =
      sign_extend_24 ((rawDistinct.getD 3 0 <<< 16) |||
        (rawDistinct.getD 4 0 <<< 8) ||| rawDistinct.getD 5 0) :=
  c2_payload_offsets 0 rawDistinct (by decide) 0 (by decide)

/-- C2 counterexample: channel 0 of a concrete packet whose payload starts
`1 2 3 4 5 6` decodes from payload offsets 3..5 (code `0x040506`), not from
offsets 0..2 (code `0x010203`) as the claim states. -/
theorem c2_status_bytes_not_skipped_refuted :
    (decodeAt (encode_data_packet 0 rawDistinct) 0).channels.getD 0 0 =
        sign_extend_24 ((rawDistinct.getD 3 0 <<< 16) |||
          (rawDistinct.getD 4 0 <<< 8) ||| rawDistinct.getD 5 0) ∧
      (decodeAt (encode_data_packet 0 rawDistinct) 0).channels.getD 0 0 ≠
        sign_extend_24 ((rawDistinct.getD 0 0 <<< 16) |||
          (rawDistinct.getD 1 0 <<< 8) ||| rawDistinct.getD 2 0) := by decide

/-- C6: the decoder's sign extension (OR-in all higher bits when bit 23 is
set) equals 24-bit two's-complement semantics on every 24-bit code;
`0x7FFFFF` decodes to 8388607, `0x800000` to -8388608, `0xFFFFFF` to -1, and
codes with bit 23 clear are unchanged. -/
theorem c6_sign_extension (value : Nat) (h : value < 2 ^ 24) :
    sign_extend_24 value = twos24 value ∧
      sign_extend_24 0x7FFFFF = 8388607 ∧
      sign_extend_24 0x800000 = -8388608 ∧
      sign_extend_24 0xFFFFFF = -1 ∧
      (value < 2 ^ 23 → sign_extend_24 value = (value : Int)) := by
  refine ⟨sign_extend_24_spec value h, by decide, by decide, by decide, ?_⟩
  intro hlt
  rw [sign_extend_24_spec value h, twos24, if_pos hlt]

/-- C6 witness: the general agreement at a concrete negative code. -/
theorem c6_sign_extension_witness :
    (0xABCDEF : Nat) < 2 ^ 24 ∧ sign_extend_24 0xABCDEF = twos24 0xABCDEF :=
  ⟨by decide, (c6_sign_extension 0xABCDEF (by decide)).1⟩

/- ===================== C3 ===================== -/

/-- C3: the scan offset advances by exactly one byte on any validation
mismatch (also an end-marker mismatch in the earlier revision), and for a
stream of `N` garbage bytes (no valid window starting inside them) followed
by two well-formed packets, the decoder publishes exactly those two packets,
decoding from the first true start marker and consuming `N + 74` bytes. -/
theorem c3_resync (g p1 p2 : List Nat)
    (hp1 : p1.length = 37) (hp2 : p2.length = 37)
    (hv1 : isValidWindow (g ++ p1 ++ p2) g.length = true)
    (hv2 : isValidWindow (g ++ p1 ++ p2) (g.length + 37) = true)
    (hg : ∀ j, j < g.length → isValidWindow (g ++ p1 ++ p2) j = false) :
    scanLoop (g ++ p1 ++ p2) 0 =
        ([decodeAt (g ++ p1 ++ p2) g.length,
          decodeAt (g ++ p1 ++ p2) (g.length + 37)], g.length + 74) ∧
      (∀ (buffer : List Nat) (pos : Nat),
        pos + PACKET_TOTAL_SIZE ≤ buffer.length →
          isValidWindow buffer pos = false →
          scanLoop buffer pos = scanLoop buffer (pos + 1)) ∧
      (∀ (buffer : List Nat) (pos : Nat),
        pos + PACKET_TOTAL_SIZE ≤ buffer.length →
          isStart000 buffer pos = true → checksumOk000 buffer pos = true →
          endOk000 buffer pos = false →
          scanLoop000 buffer pos = scanLoop000 buffer (pos + 1)) := by
  refine ⟨?_, scanLoop_step_invalid, scanLoop000_step_end_mismatch⟩
  have h37 : PACKET_TOTAL_SIZE = 37 := rfl
  have hlen : (g ++ p1 ++ p2).length = g.length + 74 := by
    simp [hp1, hp2]
  have hskip := scanLoop_skip (g ++ p1 ++ p2) g.length 0
    (fun j hj1 hj2 => hg j (by omega)) (by omega)
  have e0 : 0 + g.length = g.length := by omega
  rw [e0] at hskip
  have hstep1 := scanLoop_step_valid (g ++ p1 ++ p2) g.length (by omega) hv1
  have hstep2 := scanLoop_step_valid (g ++ p1 ++ p2) (g.length + 37)
    (by omega) hv2
  simp only [h37] at hstep1 hstep2
  have hdone : scanLoop (g ++ p1 ++ p2) (g.length + 37 + 37) =
      ([], g.length + 37 + 37) := scanLoop_done _ _ (by omega)
  rw [hskip, hstep1, hstep2, hdone]

/-- C3 witness: one garbage byte followed by two concrete framed packets. -/
theorem c3_resync_witness :
    scanLoop ([0] ++ encode_data_packet 5 rawZero ++ encode_data_packet 6 rawZero) 0 =
      ([decodeAt ([0] ++ encode_data_packet 5 rawZero ++ encode_data_packet 6 rawZero) 1,
        decodeAt ([0] ++ encode_data_packet 5 rawZero ++ encode_data_packet 6 rawZero) 38],
        75) :=
  (c3_resync [0] (encode_data_packet 5 rawZero) (encode_data_packet 6 rawZero)
    (by decide) (by decide) (by decide) (by decide) (by decide)).1

/- ===================== C7 ===================== -/

/-- C7: flipping any single bit (`xor 2 ^ k`) of any byte in the checksummed
region (offsets 2..33) of a well-formed 37-byte packet makes the scan-loop
checksum validation fail, and the scanner does not accept the altered
window — it advances by a single byte instead. -/
theorem c7_checksum_bit_flip (packet : List Nat) (i k : Nat)
    (hlen : packet.length = 37) (hbytes : ∀ b ∈ packet, b < 256)
    (hvalid : isValidWindow packet 0 = true)
    (hi1 : 2 ≤ i) (hi2 : i ≤ 33) (hk : k < 8) :
    isValidWindow (packet.set i (packet.getD i 0 ^^^ 2 ^ k)) 0 = false ∧
      scanLoop (packet.set i (packet.getD i 0 ^^^ 2 ^ k)) 0 =
        scanLoop (packet.set i (packet.getD i 0 ^^^ 2 ^ k)) 1 := by
  have hb : packet.getD i 0 < 256 := by
    have hmem : packet.getD i 0 ∈ packet := by
      rw [List.getD_eq_getElem packet 0 (by omega)]
      exact List.getElem_mem _
    exact hbytes _ hmem
  have hxf := xor_flip (packet.getD i 0) k hb hk
  have hswap := sum_map_range_swap
    (fun j => (packet.set i (packet.getD i 0 ^^^ 2 ^ k)).getD (0 + 2 + j) 0)
    (fun j => packet.getD (0 + 2 + j) 0) 32 (i - 2) (by omega)
    (fun j hj hne => getD_set_ne packet i (0 + 2 + j) _ (by omega))
  simp only [] at hswap
  have ef : 0 + 2 + (i - 2) = i := by omega
  rw [ef] at hswap
  rw [getD_set_self packet i _ (by omega)] at hswap
  have h2k1 : 1 ≤ 2 ^ k := Nat.one_le_two_pow
  have h2k2 : (2 : Nat) ^ k ≤ 128 := by
    calc (2 : Nat) ^ k ≤ 2 ^ 7 := Nat.pow_le_pow_right (by norm_num) (by omega)
    _ = 128 := by norm_num
  have hmod :
      ((List.range 32).map
        (fun j => (packet.set i (packet.getD i 0 ^^^ 2 ^ k)).getD (0 + 2 + j) 0)).sum % 256 ≠
      ((List.range 32).map (fun j => packet.getD (0 + 2 + j) 0)).sum % 256 := by
    rcases hxf.1 with h | h
    · omega
    · omega
  have hv3 : hostChecksum packet 0 = packet.getD (0 + 34) 0 := by
    simp only [isValidWindow, Bool.and_eq_true, beq_iff_eq] at hvalid
    exact hvalid.2
  have h34 : (packet.set i (packet.getD i 0 ^^^ 2 ^ k)).getD (0 + 34) 0 =
      packet.getD (0 + 34) 0 := getD_set_ne packet i (0 + 34) _ (by omega)
  have hneq : (hostChecksum (packet.set i (packet.getD i 0 ^^^ 2 ^ k)) 0 ==
      (packet.set i (packet.getD i 0 ^^^ 2 ^ k)).getD (0 + 34) 0) = false := by
    rw [beq_eq_false_iff_ne, h34, ← hv3, hostChecksum_eq_sum, hostChecksum_eq_sum]
    exact hmod
  have hfalse : isValidWindow (packet.set i (packet.getD i 0 ^^^ 2 ^ k)) 0 = false := by
    simp only [isValidWindow]
    rw [hneq]
    simp
  refine ⟨hfalse, ?_⟩
  exact scanLoop_step_invalid _ 0 (by simp [hlen, PACKET_TOTAL_SIZE]) hfalse

/-- C7 witness: flipping bit 0 of byte 5 of a concrete framed packet. -/
theorem c7_checksum_bit_flip_witness :
    isValidWindow (packetZero.set 5 (packetZero.getD 5 0 ^^^ 2 ^ 0)) 0 = false ∧
      scanLoop (packetZero.set 5 (packetZero.getD 5 0 ^^^ 2 ^ 0)) 0 =
        scanLoop (packetZero.set 5 (packetZero.getD 5 0 ^^^ 2 ^ 0)) 1 :=
  c7_checksum_bit_flip packetZero 5 0 (by decide) (by decide) (by decide)
    (by decide) (by decide) (by decide)

/- ===================== C8 ===================== -/

/-- C8: round trip.  For every 32-bit timestamp, 3 status bytes and 8
24-bit channel codes, the firmware framer's packet is 37 bytes, passes the
host's start-marker and checksum validation, carries the `0xDC 0xBA` end
marker, and the host decoder recovers the timestamp exactly and every
channel code exactly under two's-complement semantics. -/
theorem c8_roundtrip (ts : Nat) (status codes : List Nat)
    (hts : ts < 2 ^ 32) (hst : status.length = 3) (hcl : codes.length = 8)
    (hcb : ∀ c ∈ codes, c < 2 ^ 24) :
    (encode_data_packet ts (status ++ packChannelCodes codes)).length = 37 ∧
      isValidWindow (encode_data_packet ts (status ++ packChannelCodes codes)) 0 = true ∧
      (encode_data_packet ts (status ++ packChannelCodes codes)).getD 35 0 = 0xDC ∧
      (encode_data_packet ts (status ++ packChannelCodes codes)).getD 36 0 = 0xBA ∧
      (decodeAt (encode_data_packet ts (status ++ packChannelCodes codes)) 0).timestamp = ts ∧
      ∀ k, k < 8 →
        (decodeAt (encode_data_packet ts (status ++ packChannelCodes codes)) 0).channels.getD k 0 =
          twos24 (codes.getD k 0) := by
  have hraw : (status ++ packChannelCodes codes).length = 27 := by
    simp [packChannelCodes_length, hst, hcl]
  refine ⟨?_, isValidWindow_encode _ _ hraw, (encode_getD_trailer _ _ hraw).2.1,
    (encode_getD_trailer _ _ hraw).2.2, decodeTimestamp_encode ts _ hts, ?_⟩
  · rw [encode_data_packet_length, hraw]
  · intro k hk
    rw [decodeAt_channels_getD _ _ _ hk]
    have hcode : codes.getD k 0 < 2 ^ 24 := by
      have hmem : codes.getD k 0 ∈ codes := by
        rw [List.getD_eq_getElem codes 0 (by omega)]
        exact List.getElem_mem _
      exact hcb _ hmem
    exact decodeChannel_encode ts status codes hst hcl k hk hcode

/-- C8 witness: the round trip at a concrete timestamp and code set. -/
theorem c8_roundtrip_witness :
    isValidWindow (encode_data_packet 1700000000
        ([0xC0, 0, 0] ++ packChannelCodes [1, 0x7FFFFF, 0x800000, 0xFFFFFF, 0, 2, 3, 4])) 0 =
      true ∧
      (decodeAt (encode_data_packet 1700000000
        ([0xC0, 0, 0] ++ packChannelCodes [1, 0x7FFFFF, 0x800000, 0xFFFFFF, 0, 2, 3, 4])) 0).timestamp =
        1700000000 ∧
      (decodeAt (encode_data_packet 1700000000
        ([0xC0, 0, 0] ++ packChannelCodes [1, 0x7FFFFF, 0x800000, 0xFFFFFF, 0, 2, 3, 4])) 0).channels.getD 3 0 =
        twos24 0xFFFFFF :=
  ⟨(c8_roundtrip 1700000000 [0xC0, 0, 0] [1, 0x7FFFFF, 0x800000, 0xFFFFFF, 0, 2, 3, 4]
      (by decide) (by decide) (by decide) (by decide)).2.1,
    (c8_roundtrip 1700000000 [0xC0, 0, 0] [1, 0x7FFFFF, 0x800000, 0xFFFFFF, 0, 2, 3, 4]
      (by decide) (by decide) (by decide) (by decide)).2.2.2.2.1,
    (c8_roundtrip 1700000000 [0xC0, 0, 0] [1, 0x7FFFFF, 0x800000, 0xFFFFFF, 0, 2, 3, 4]
      (by decide) (by decide) (by decide) (by decide)).2.2.2.2.2 3 (by decide)⟩

/- ===================== C10 ===================== -/

/-- C10: every index the scan loop reads for the candidate window at `pos`
is below the buffer length under the loop guard `pos + 37 ≤ size` (the
highest index read is `pos + 34`); the offset strictly increases each
iteration — by 1 on a mismatch and by 37 on a successful decode — so the
scan terminates; and the final erase offset never exceeds the buffer
size. -/
theorem c10_scan_safety :
    (∀ (buffer : List Nat) (pos : Nat), pos + PACKET_TOTAL_SIZE ≤ buffer.length →
      ∀ i ∈ scanWindowReads pos, i < buffer.length) ∧
      (∀ (buffer : List Nat) (pos : Nat), pos + PACKET_TOTAL_SIZE ≤ buffer.length →
        (isValidWindow buffer pos = false →
          scanLoop buffer pos = scanLoop buffer (pos + 1)) ∧
        (isValidWindow buffer pos = true →
          scanLoop buffer pos =
            (decodeAt buffer pos :: (scanLoop buffer (pos + PACKET_TOTAL_SIZE)).1,
              (scanLoop buffer (pos + PACKET_TOTAL_SIZE)).2))) ∧
      (∀ (buffer : List Nat) (pos : Nat), pos ≤ buffer.length →
        (scanLoop buffer pos).2 ≤ buffer.length) := by
  refine ⟨?_, ?_, scanLoop_finalPos_le⟩
  · intro buffer pos hguard i hi
    have h37 : PACKET_TOTAL_SIZE = 37 := rfl
    have hb : i ≤ pos + 34 := by
      simp only [scanWindowReads, List.mem_append, List.mem_cons, List.mem_map,
        List.mem_range, List.not_mem_nil, or_false] at hi
      rcases hi with ((h | h) | h) | h | h | h <;> omega
    omega
  · intro buffer pos hguard
    exact ⟨fun hv => scanLoop_step_invalid buffer pos hguard hv,
      fun hv => scanLoop_step_valid buffer pos hguard hv⟩

/-- C10 witness: the in-bounds bound at a concrete buffer and the highest
read index. -/
theorem c10_scan_safety_witness :
    (0 : Nat) + PACKET_TOTAL_SIZE ≤ (List.replicate 40 (0 : Nat)).length ∧
      (34 : Nat) ∈ scanWindowReads 0 ∧
      (34 : Nat) < (List.replicate 40 (0 : Nat)).length :=
  ⟨by decide, by decide,
    c10_scan_safety.1 (List.replicate 40 0) 0 (by decide) 34 (by decide)⟩

end Cerelog
